import Mathlib

/-!
Verification of the smart-jemuran core: the fuzzy decision engine
(`fuzzy_logic.py`), the MQTT payload parser and telemetry state
(`mqtt_handler.py`), and the confirmed-command actuator protocol
(`MQTTClient.publish_control`).

The Python code configures the external `skfuzzy` control library with
triangular/trapezoidal membership functions sampled on integer universes
(`np.arange`), Mamdani min/max rule evaluation, clipping by firing strength,
per-term max accumulation and exact piecewise-linear centroid defuzzification
over the sampled output universe.  All membership breakpoints of this
configuration are integers (the rain variable's breakpoint 1/2 is only ever
evaluated at the grid points 0 and 1), so `skfuzzy`'s grid-interpolated
fuzzification coincides with the closed-form membership functions on the whole
domain that `evaluate` admits; the embedding therefore uses the closed-form
functions over `ℚ` and reproduces the sampled-polyline centroid exactly
(the trapezoid decomposition below is the same piecewise computation
`skfuzzy.defuzz` performs, in exact rational arithmetic).
-/

deriving instance DecidableEq for Except

namespace SmartJemuran

/-- Triangular membership function, as sampled by `skfuzzy.trimf`:
0 outside `(a, c)`, 1 at `b`, linear ramps `(x-a)/(b-a)` on `(a, b)` and
`(c-x)/(c-b)` on `(b, c)`. -/
def trimf (a b c x : ℚ) : ℚ :=
  if x = b then 1
  else if a < x ∧ x < b then (x - a) / (b - a)
  else if b < x ∧ x < c then (c - x) / (c - b)
  else 0

/-- Trapezoidal membership function, as sampled by `skfuzzy.trapmf`:
0 outside `[a, d]`, 1 on `[b, c]`, linear ramps on `(a, b)` and `(c, d)`. -/
def trapmf (a b c d x : ℚ) : ℚ :=
  if x < a then 0
  else if d < x then 0
  else if x ≤ b then trimf a b b x
  else if c ≤ x then trimf c c d x
  else 1

/-! Membership functions from `FuzzySystem._setup_membership_functions`. -/

def coldT (x : ℚ) : ℚ := trapmf 0 0 15 22 x
def normalT (x : ℚ) : ℚ := trimf 20 25 30 x
def hotT (x : ℚ) : ℚ := trapmf 28 32 50 50 x
def dryH (x : ℚ) : ℚ := trapmf 0 0 30 50 x
def normalH (x : ℚ) : ℚ := trimf 40 60 80 x
def humidH (x : ℚ) : ℚ := trapmf 70 80 100 100 x
def darkL (x : ℚ) : ℚ := trapmf 2500 3000 4096 4096 x
def mediumL (x : ℚ) : ℚ := trimf 1000 2000 3000 x
def brightL (x : ℚ) : ℚ := trapmf 0 0 1500 2000 x
def noRain (x : ℚ) : ℚ := trimf 0 0 (1/2) x
def rainR (x : ℚ) : ℚ := trimf (1/2) 1 1 x
def morningTm (x : ℚ) : ℚ := trapmf 5 7 10 12 x
def afternoonTm (x : ℚ) : ℚ := trapmf 10 12 15 17 x
def eveningTm (x : ℚ) : ℚ := trapmf 15 17 19 21 x
def nightTm (x : ℚ) : ℚ := trapmf 19 21 23 24 x
def badR (z : ℚ) : ℚ := trimf 0 0 30 z
def fairR (z : ℚ) : ℚ := trimf 20 50 80 z
def goodR (z : ℚ) : ℚ := trimf 70 100 100 z

/-- The five crisp inputs of `FuzzySystem.evaluate` after its
validation/clamping step. -/
structure FuzzyInput where
  temperature : ℚ
  humidity : ℚ
  light : ℚ
  rain : ℚ
  time : ℚ
deriving DecidableEq

/-! Rule firing strengths from `FuzzySystem._setup_rules`:
fuzzy AND is `min`, fuzzy OR is `max` (skfuzzy defaults). -/

def rule1 (i : FuzzyInput) : ℚ := rainR i.rain

def rule2 (i : FuzzyInput) : ℚ := min (noRain i.rain) (nightTm i.time)

def rule3 (i : FuzzyInput) : ℚ :=
  min (min (min (min (noRain i.rain) (afternoonTm i.time))
    (normalT i.temperature)) (normalH i.humidity)) (brightL i.light)

def rule4 (i : FuzzyInput) : ℚ :=
  min (min (min (noRain i.rain) (max (morningTm i.time) (eveningTm i.time)))
    (max (normalT i.temperature) (hotT i.temperature))) (normalH i.humidity)

def rule5 (i : FuzzyInput) : ℚ :=
  min (noRain i.rain) (max (mediumL i.light) (humidH i.humidity))

def rule6 (i : FuzzyInput) : ℚ := min (coldT i.temperature) (humidH i.humidity)

def rule7 (i : FuzzyInput) : ℚ := noRain i.rain

/-- Maximum firing strength among rules whose consequent is `bad`
(rules 1, 2 and 6). -/
def badStrength (i : FuzzyInput) : ℚ := max (max (rule1 i) (rule2 i)) (rule6 i)

/-- Maximum firing strength among rules whose consequent is `fair`
(rules 4, 5 and 7). -/
def fairStrength (i : FuzzyInput) : ℚ := max (max (rule4 i) (rule5 i)) (rule7 i)

/-- Firing strength of the single rule whose consequent is `good` (rule 3). -/
def goodStrength (i : FuzzyInput) : ℚ := rule3 i

/-- Aggregated output membership surface: each consequent set is clipped at
its aggregated firing strength (Mamdani implication `min`), the clipped sets
are accumulated with `max`. -/
def aggMF (i : FuzzyInput) (z : ℚ) : ℚ :=
  max (min (badStrength i) (badR z))
    (max (min (fairStrength i) (fairR z)) (min (goodStrength i) (goodR z)))

/-- Area contributed by one segment of the sampled polyline
(exact value of the trapezoid between consecutive sample points). -/
def segArea (x1 x2 y1 y2 : ℚ) : ℚ := (x2 - x1) * (y1 + y2) / 2

/-- First moment (`∫ x·y dx`) contributed by one segment of the sampled
polyline; algebraically identical to the per-segment `moment * area`
accumulation of `skfuzzy.defuzz`'s centroid method. -/
def segMoment (x1 x2 y1 y2 : ℚ) : ℚ :=
  (x2 - x1) ^ 2 * (y1 + 2 * y2) / 6 + x1 * segArea x1 x2 y1 y2

/-- The 100 consecutive sample intervals of the output universe
`np.arange(0, 101, 1)`. -/
def gridPairs : List (ℚ × ℚ) :=
  (List.range 100).map fun n : ℕ => ((n : ℚ), (n : ℚ) + 1)

def centNum (f : ℚ → ℚ) : ℚ :=
  (gridPairs.map fun p => segMoment p.1 p.2 (f p.1) (f p.2)).sum

def centDen (f : ℚ → ℚ) : ℚ :=
  (gridPairs.map fun p => segArea p.1 p.2 (f p.1) (f p.2)).sum

/-- Centroid defuzzification of the aggregated surface sampled on the output
universe `0, 1, …, 100`. -/
def centroid (f : ℚ → ℚ) : ℚ := centNum f / centDen f

/-- `light = max(0, min(light, 4096))` from `evaluate`'s clamping step. -/
def clampLight (l : ℤ) : ℤ := max 0 (min l 4096)

/-- `if rain not in (0, 1): rain = 1 if rain else 0` from `evaluate`. -/
def coerceRain (r : ℤ) : ℤ :=
  if r = 0 ∨ r = 1 then r else if r ≠ 0 then 1 else 0

/-- The situation `evaluate` guards against after `compute()`: no rule has
produced any activation, so no crisp output is available and the default 50
is substituted. -/
def noRuleActivated (i : FuzzyInput) : Bool :=
  decide (badStrength i = 0) && decide (fairStrength i = 0) &&
    decide (goodStrength i = 0)

/-- The dictionary returned by `FuzzySystem.evaluate` on success:
`recommendation`, `confidence`, `status`, `rules_activated` (a hardcoded
list, per the source comment "Simplified for demo") and the
`input_parameters` echo (the local variables, i.e. light/rain/time after
clamping/coercion/normalisation). -/
structure EvalOk where
  recommendation : String
  confidence : ℚ
  status : String
  rulesActivated : List String
  pTemperature : ℚ
  pHumidity : ℚ
  pLight : ℤ
  pRain : ℤ
  pTime : ℤ
deriving DecidableEq

/-- The crisp inputs handed to the simulation after `evaluate`'s
clamping/coercion/normalisation step (`time % 24` is Python `%`: both give
the representative in `[0, 24)`). -/
def evalInput (temperature humidity : ℚ) (light rain time : ℤ) : FuzzyInput :=
  ⟨temperature, humidity, (clampLight light : ℚ), (coerceRain rain : ℚ),
    ((time % 24 : ℤ) : ℚ)⟩

/-- The crisp output: centroid of the aggregated surface, with the default 50
substituted when no rule activated. -/
def evalOutput (i : FuzzyInput) : ℚ :=
  if noRuleActivated i then 50 else centroid (aggMF i)

/-- `evaluate`'s threshold mapping: `output >= 70` → "bagus",
`output >= 30` → "cukup", else "buruk". -/
def evalCategory (output : ℚ) : String :=
  if 70 ≤ output then "bagus" else if 30 ≤ output then "cukup" else "buruk"

/-- `FuzzySystem.evaluate`.  A `ValueError` on temperature/humidity is
re-raised as an HTTP 400 error; the embedding returns it as `Except.error`. -/
def evaluate (temperature humidity : ℚ) (light rain time : ℤ) :
    Except String EvalOk :=
  if ¬(0 ≤ temperature ∧ temperature ≤ 50) then
    .error "Temperature must be between 0-50 C"
  else if ¬(0 ≤ humidity ∧ humidity ≤ 100) then
    .error "Humidity must be between 0-100 percent"
  else
    .ok ⟨evalCategory (evalOutput (evalInput temperature humidity light rain time)),
      evalOutput (evalInput temperature humidity light rain time),
      "success", ["rule1", "rule3"],
      temperature, humidity, clampLight light, coerceRain rain, time % 24⟩

/-! ### Basic bounds on membership functions and firing strengths -/

lemma trimf_nonneg (a b c x : ℚ) : 0 ≤ trimf a b c x := by
  unfold trimf
  split_ifs with h1 h2 h3
  · norm_num
  · exact le_of_lt (div_pos (by linarith [h2.1]) (by linarith [h2.1, h2.2]))
  · exact le_of_lt (div_pos (by linarith [h3.2]) (by linarith [h3.1, h3.2]))
  · exact le_refl _

lemma trimf_le_one (a b c x : ℚ) : trimf a b c x ≤ 1 := by
  unfold trimf
  split_ifs with h1 h2 h3
  · exact le_refl _
  · rw [div_le_one (by linarith [h2.1, h2.2])]
    linarith [h2.1]
  · rw [div_le_one (by linarith [h3.1, h3.2])]
    linarith [h3.2]
  · norm_num

lemma trapmf_nonneg (a b c d x : ℚ) : 0 ≤ trapmf a b c d x := by
  unfold trapmf
  split_ifs
  · exact le_refl 0
  · exact le_refl 0
  · exact trimf_nonneg a b b x
  · exact trimf_nonneg c c d x
  · norm_num

lemma trapmf_le_one (a b c d x : ℚ) : trapmf a b c d x ≤ 1 := by
  unfold trapmf
  split_ifs
  · norm_num
  · norm_num
  · exact trimf_le_one a b b x
  · exact trimf_le_one c c d x
  · exact le_refl 1

lemma aggMF_nonneg (i : FuzzyInput) (z : ℚ) : 0 ≤ aggMF i z := by
  have h1 : 0 ≤ badStrength i :=
    le_trans (trimf_nonneg _ _ _ _) (le_trans (le_max_left (rule1 i) (rule2 i))
      (le_max_left _ _))
  have h2 : 0 ≤ badR z := trimf_nonneg _ _ _ _
  exact le_trans (le_min h1 h2) (le_max_left _ _)

lemma min_zero_left {y : ℚ} (hy : 0 ≤ y) : min (0 : ℚ) y = 0 := min_eq_left hy

lemma coldT_nonneg (x : ℚ) : 0 ≤ coldT x := trapmf_nonneg _ _ _ _ _
lemma normalT_nonneg (x : ℚ) : 0 ≤ normalT x := trimf_nonneg _ _ _ _
lemma hotT_nonneg (x : ℚ) : 0 ≤ hotT x := trapmf_nonneg _ _ _ _ _
lemma normalH_nonneg (x : ℚ) : 0 ≤ normalH x := trimf_nonneg _ _ _ _
lemma humidH_nonneg (x : ℚ) : 0 ≤ humidH x := trapmf_nonneg _ _ _ _ _
lemma mediumL_nonneg (x : ℚ) : 0 ≤ mediumL x := trimf_nonneg _ _ _ _
lemma brightL_nonneg (x : ℚ) : 0 ≤ brightL x := trapmf_nonneg _ _ _ _ _
lemma morningTm_nonneg (x : ℚ) : 0 ≤ morningTm x := trapmf_nonneg _ _ _ _ _
lemma eveningTm_nonneg (x : ℚ) : 0 ≤ eveningTm x := trapmf_nonneg _ _ _ _ _
lemma afternoonTm_nonneg (x : ℚ) : 0 ≤ afternoonTm x := trapmf_nonneg _ _ _ _ _
lemma nightTm_nonneg (x : ℚ) : 0 ≤ nightTm x := trapmf_nonneg _ _ _ _ _
lemma badR_nonneg (z : ℚ) : 0 ≤ badR z := trimf_nonneg _ _ _ _
lemma fairR_nonneg (z : ℚ) : 0 ≤ fairR z := trimf_nonneg _ _ _ _
lemma goodR_nonneg (z : ℚ) : 0 ≤ goodR z := trimf_nonneg _ _ _ _
lemma badR_le_one (z : ℚ) : badR z ≤ 1 := trimf_le_one _ _ _ _
lemma fairR_le_one (z : ℚ) : fairR z ≤ 1 := trimf_le_one _ _ _ _
lemma goodR_le_one (z : ℚ) : goodR z ≤ 1 := trimf_le_one _ _ _ _
lemma coldT_le_one (x : ℚ) : coldT x ≤ 1 := trapmf_le_one _ _ _ _ _

/-! ### Behaviour of the rules at the two crisp rain values

The rain universe is `np.arange(0, 2, 1) = {0, 1}` and `evaluate` coerces
the rain input into `{0, 1}`; the sampled memberships there are exact. -/

lemma noRain_zero : noRain 0 = 1 := by norm_num [noRain, trimf]

lemma noRain_one : noRain 1 = 0 := by norm_num [noRain, trimf]

lemma rainR_one : rainR 1 = 1 := by norm_num [rainR, trimf]

/-- With the crisp rain input 1, rule 1 fires fully and every rule guarded by
`no_rain` has firing strength 0; only rule 6 (cold ∧ humid) can also fire, and
it shares rule 1's consequent `bad`. -/
lemma strengths_rain_one (i : FuzzyInput) (h : i.rain = 1) :
    badStrength i = 1 ∧ fairStrength i = 0 ∧ goodStrength i = 0 := by
  have hnr : noRain i.rain = 0 := by rw [h]; exact noRain_one
  have hr1 : rule1 i = 1 := by unfold rule1; rw [h]; exact rainR_one
  have hr2 : rule2 i = 0 := by
    unfold rule2; rw [hnr]; exact min_zero_left (trapmf_nonneg _ _ _ _ _)
  have hr3 : rule3 i = 0 := by
    unfold rule3
    rw [hnr, min_zero_left (afternoonTm_nonneg _),
      min_zero_left (normalT_nonneg _), min_zero_left (normalH_nonneg _),
      min_zero_left (brightL_nonneg _)]
  have hr4 : rule4 i = 0 := by
    unfold rule4
    rw [hnr, min_zero_left (le_trans (morningTm_nonneg _) (le_max_left _ _)),
      min_zero_left (le_trans (normalT_nonneg _) (le_max_left _ _)),
      min_zero_left (normalH_nonneg _)]
  have hr5 : rule5 i = 0 := by
    unfold rule5
    rw [hnr, min_zero_left (le_trans (mediumL_nonneg _) (le_max_left _ _))]
  have hr7 : rule7 i = 0 := by unfold rule7; rw [hnr]
  refine ⟨?_, ?_, hr3⟩
  · have h6 : rule6 i ≤ 1 :=
      le_trans (min_le_left _ _) (coldT_le_one _)
    unfold badStrength
    rw [hr1, hr2, max_eq_left (by norm_num : (0 : ℚ) ≤ 1), max_eq_left h6]
  · unfold fairStrength
    rw [hr4, hr5, hr7, max_self, max_self]

/-- With crisp rain 1 the aggregated surface is exactly the `bad` output set. -/
lemma aggMF_rain_one (i : FuzzyInput) (h : i.rain = 1) : aggMF i = badR := by
  obtain ⟨hb, hf, hg⟩ := strengths_rain_one i h
  funext z
  unfold aggMF
  rw [hb, hf, hg, min_eq_right (badR_le_one _),
    min_zero_left (fairR_nonneg _), min_zero_left (goodR_nonneg _),
    max_self, max_eq_left (badR_nonneg _)]

section RatEval

set_option maxRecDepth 1000000

attribute [local semireducible] Rat.mul Rat.add Rat.inv Rat.sub

/-- Centroid of the full `bad` output set `trimf [0, 0, 30]` over the sampled
output universe: exactly 10 (computed segment by segment). -/
lemma centroid_badR : centroid badR = 10 := by decide

/-- Centroid of the full `fair` output set `trimf [20, 50, 80]`: exactly 50. -/
lemma centroid_fairR : centroid fairR = 50 := by decide

end RatEval

lemma coerceRain_one : coerceRain 1 = 1 := by norm_num [coerceRain]

/-- Evaluation of `evaluate` past its validation step. -/
lemma evaluate_ok (t h : ℚ) (l r tm : ℤ) (ht0 : 0 ≤ t) (ht1 : t ≤ 50)
    (hh0 : 0 ≤ h) (hh1 : h ≤ 100) :
    evaluate t h l r tm =
      .ok ⟨evalCategory (evalOutput (evalInput t h l r tm)),
        evalOutput (evalInput t h l r tm), "success", ["rule1", "rule3"],
        t, h, clampLight l, coerceRain r, tm % 24⟩ := by
  unfold evaluate
  rw [if_neg (not_not_intro ⟨ht0, ht1⟩), if_neg (not_not_intro ⟨hh0, hh1⟩)]

/-- With the rain argument 1, the crisp output of the pipeline is 10. -/
lemma evalOutput_rain_one (t h : ℚ) (l tm : ℤ) :
    evalOutput (evalInput t h l 1 tm) = 10 := by
  have hrain : (evalInput t h l 1 tm).rain = 1 := by
    show ((coerceRain 1 : ℤ) : ℚ) = 1
    rw [coerceRain_one]; norm_num
  obtain ⟨hb, _, _⟩ := strengths_rain_one _ hrain
  have hnra : noRuleActivated (evalInput t h l 1 tm) = false := by
    unfold noRuleActivated
    rw [hb]
    norm_num
  unfold evalOutput
  rw [hnra, if_neg (by norm_num), aggMF_rain_one _ hrain, centroid_badR]

/-- C1: for every in-range temperature and humidity, any light and any hour,
the input rain = true (crisp 1) yields the category poor ("buruk"): rule R1
fires at strength 1, all no-rain rules are silenced, the aggregated surface is
the `bad` set and its centroid is 10 < 30. -/
theorem evaluate_rain_true_poor (t h : ℚ) (l tm : ℤ)
    (ht0 : 0 ≤ t) (ht1 : t ≤ 50) (hh0 : 0 ≤ h) (hh1 : h ≤ 100) :
    ∃ res : EvalOk, evaluate t h l 1 tm = .ok res ∧
      res.recommendation = "buruk" ∧ res.confidence = 10 := by
  refine ⟨_, evaluate_ok t h l 1 tm ht0 ht1 hh0 hh1, ?_, ?_⟩
  · show evalCategory (evalOutput (evalInput t h l 1 tm)) = "buruk"
    rw [evalOutput_rain_one]
    unfold evalCategory
    rw [if_neg (by norm_num), if_neg (by norm_num)]
  · show evalOutput (evalInput t h l 1 tm) = 10
    exact evalOutput_rain_one t h l tm

/-- Witness for C1: the spec's own test vector temperature=25, humidity=60,
light=0, rain=true, hour=12 yields category poor. -/
theorem evaluate_rain_true_poor_witness :
    ∃ res : EvalOk, evaluate 25 60 0 1 12 = .ok res ∧
      res.recommendation = "buruk" ∧ res.confidence = 10 :=
  evaluate_rain_true_poor 25 60 0 12 (by norm_num) (by norm_num) (by norm_num)
    (by norm_num)

/-! ### C3: the crisp output always lies in [0, 100] -/

lemma gridPairs_mem {p : ℚ × ℚ} (hp : p ∈ gridPairs) :
    ∃ n : ℕ, n < 100 ∧ p = ((n : ℚ), (n : ℚ) + 1) := by
  unfold gridPairs at hp
  obtain ⟨m, hm, hemp⟩ := List.mem_map.mp hp
  exact ⟨m, List.mem_range.mp hm, hemp.symm⟩

lemma segArea_eq (x1 y1 y2 : ℚ) : segArea x1 (x1 + 1) y1 y2 = (y1 + y2) / 2 := by
  unfold segArea; ring

lemma segMoment_eq (x1 y1 y2 : ℚ) :
    segMoment x1 (x1 + 1) y1 y2 = (y1 + 2 * y2) / 6 + x1 * ((y1 + y2) / 2) := by
  unfold segMoment segArea; ring

lemma seg_bounds {x1 y1 y2 : ℚ} (hx0 : 0 ≤ x1) (hx99 : x1 ≤ 99)
    (hy1 : 0 ≤ y1) (hy2 : 0 ≤ y2) :
    0 ≤ segArea x1 (x1 + 1) y1 y2 ∧ 0 ≤ segMoment x1 (x1 + 1) y1 y2 ∧
      segMoment x1 (x1 + 1) y1 y2 ≤ 100 * segArea x1 (x1 + 1) y1 y2 := by
  rw [segArea_eq, segMoment_eq]
  have hys : 0 ≤ y1 + y2 := by linarith
  have hmul : x1 * (y1 + y2) ≤ 99 * (y1 + y2) :=
    mul_le_mul_of_nonneg_right hx99 hys
  have hmul0 : 0 ≤ x1 * (y1 + y2) := mul_nonneg hx0 hys
  refine ⟨by linarith, by linarith, by linarith⟩

lemma centDen_nonneg (f : ℚ → ℚ) (hf : ∀ z, 0 ≤ f z) : 0 ≤ centDen f := by
  unfold centDen
  apply List.sum_nonneg
  intro q hq
  obtain ⟨p, hp, rfl⟩ := List.mem_map.mp hq
  obtain ⟨n, hn, rfl⟩ := gridPairs_mem hp
  have : ((n : ℚ)) ≤ 99 := by
    have : (n : ℚ) ≤ (99 : ℕ) := Nat.cast_le.mpr (Nat.lt_succ_iff.mp hn)
    simpa using this
  exact (seg_bounds (Nat.cast_nonneg n) this (hf _) (hf _)).1

lemma centNum_nonneg (f : ℚ → ℚ) (hf : ∀ z, 0 ≤ f z) : 0 ≤ centNum f := by
  unfold centNum
  apply List.sum_nonneg
  intro q hq
  obtain ⟨p, hp, rfl⟩ := List.mem_map.mp hq
  obtain ⟨n, hn, rfl⟩ := gridPairs_mem hp
  have : ((n : ℚ)) ≤ 99 := by
    have : (n : ℚ) ≤ (99 : ℕ) := Nat.cast_le.mpr (Nat.lt_succ_iff.mp hn)
    simpa using this
  exact (seg_bounds (Nat.cast_nonneg n) this (hf _) (hf _)).2.1

lemma centNum_le (f : ℚ → ℚ) (hf : ∀ z, 0 ≤ f z) :
    centNum f ≤ 100 * centDen f := by
  unfold centNum centDen
  rw [← List.sum_map_mul_left]
  apply List.sum_le_sum
  intro p hp
  obtain ⟨n, hn, rfl⟩ := gridPairs_mem hp
  have : ((n : ℚ)) ≤ 99 := by
    have : (n : ℚ) ≤ (99 : ℕ) := Nat.cast_le.mpr (Nat.lt_succ_iff.mp hn)
    simpa using this
  exact (seg_bounds (Nat.cast_nonneg n) this (hf _) (hf _)).2.2

/-- The sampled-polyline centroid of a nonnegative surface lies in the output
universe `[0, 100]` (also when the surface has zero total area, in which case
the rational division yields 0). -/
lemma centroid_bounds (f : ℚ → ℚ) (hf : ∀ z, 0 ≤ f z) :
    0 ≤ centroid f ∧ centroid f ≤ 100 := by
  have hd := centDen_nonneg f hf
  have hn := centNum_nonneg f hf
  have hle := centNum_le f hf
  unfold centroid
  rcases eq_or_lt_of_le hd with hd0 | hdpos
  · have hnum0 : centNum f = 0 := le_antisymm (by rw [← hd0] at hle; linarith) hn
    rw [hnum0]
    norm_num
  · constructor
    · exact div_nonneg hn (le_of_lt hdpos)
    · rw [div_le_iff₀ hdpos]
      linarith

lemma evalOutput_bounds (i : FuzzyInput) :
    0 ≤ evalOutput i ∧ evalOutput i ≤ 100 := by
  unfold evalOutput
  split_ifs
  · norm_num
  · exact centroid_bounds (aggMF i) (aggMF_nonneg i)

/-- The threshold mapping is exactly the §4.3 category table. -/
lemma evalCategory_spec (o : ℚ) :
    (evalCategory o = "bagus" ↔ 70 ≤ o) ∧
    (evalCategory o = "cukup" ↔ 30 ≤ o ∧ o < 70) ∧
    (evalCategory o = "buruk" ↔ o < 30) := by
  unfold evalCategory
  split_ifs with h70 h30
  · exact ⟨⟨fun _ => h70, fun _ => rfl⟩,
      ⟨fun hx => absurd hx (by decide), fun hx => absurd h70 (not_le.mpr hx.2)⟩,
      ⟨fun hx => absurd hx (by decide), fun hx => absurd h70 (by linarith)⟩⟩
  · exact ⟨⟨fun hx => absurd hx (by decide), fun hx => absurd hx h70⟩,
      ⟨fun _ => ⟨h30, not_le.mp h70⟩, fun _ => rfl⟩,
      ⟨fun hx => absurd hx (by decide), fun hx => absurd h30 (not_le.mpr hx)⟩⟩
  · exact ⟨⟨fun hx => absurd hx (by decide), fun hx => absurd hx h70⟩,
      ⟨fun hx => absurd hx (by decide), fun hx => absurd hx.1 h30⟩,
      ⟨fun _ => not_le.mp h30, fun _ => rfl⟩⟩

/-- C3: for every in-range temperature and humidity and arbitrary light, rain
and hour, `evaluate` succeeds, its confidence lies in [0, 100], and the
category is exactly the thresholded reading of the confidence:
"bagus" iff ≥ 70, "cukup" iff in [30, 70), "buruk" iff < 30. -/
theorem evaluate_confidence_category (t h : ℚ) (l r tm : ℤ)
    (ht0 : 0 ≤ t) (ht1 : t ≤ 50) (hh0 : 0 ≤ h) (hh1 : h ≤ 100) :
    ∃ res : EvalOk, evaluate t h l r tm = .ok res ∧
      0 ≤ res.confidence ∧ res.confidence ≤ 100 ∧
      (res.recommendation = "bagus" ↔ 70 ≤ res.confidence) ∧
      (res.recommendation = "cukup" ↔ 30 ≤ res.confidence ∧ res.confidence < 70) ∧
      (res.recommendation = "buruk" ↔ res.confidence < 30) := by
  refine ⟨_, evaluate_ok t h l r tm ht0 ht1 hh0 hh1, ?_⟩
  obtain ⟨hlo, hhi⟩ := evalOutput_bounds (evalInput t h l r tm)
  obtain ⟨hiff1, hiff2, hiff3⟩ :=
    evalCategory_spec (evalOutput (evalInput t h l r tm))
  exact ⟨hlo, hhi, hiff1, hiff2, hiff3⟩

/-! ### C2: the no-rule default and its (non-)observability -/

lemma coerceRain_cases (r : ℤ) : coerceRain r = 0 ∨ coerceRain r = 1 := by
  unfold coerceRain
  split_ifs with h1 h2
  · exact h1
  · right; rfl
  · left; rfl

/-- C2 (amended): the no-rule-activated situation is unreachable — after the
rain coercion, the crisp rain value is 0 or 1, so rule R7 (catch-all no-rain →
fair) or rule R1 (rain → bad) fires at strength 1 and some rule always
activates. -/
theorem no_rule_branch_unreachable (t h : ℚ) (l r tm : ℤ) :
    noRuleActivated (evalInput t h l r tm) = false := by
  rcases coerceRain_cases r with h0 | h1
  · have hrain : (evalInput t h l r tm).rain = 0 := by
      show ((coerceRain r : ℤ) : ℚ) = 0
      rw [h0]; norm_num
    have h7 : rule7 (evalInput t h l r tm) = 1 := by
      unfold rule7; rw [hrain]; exact noRain_zero
    have hfs : (1 : ℚ) ≤ fairStrength (evalInput t h l r tm) := by
      unfold fairStrength
      rw [← h7]
      exact le_max_right _ _
    have hne : fairStrength (evalInput t h l r tm) ≠ 0 := by
      intro hc; rw [hc] at hfs; norm_num at hfs
    unfold noRuleActivated
    rw [decide_eq_false hne]
    simp
  · have hrain : (evalInput t h l r tm).rain = 1 := by
      show ((coerceRain r : ℤ) : ℚ) = 1
      rw [h1]; norm_num
    obtain ⟨hb, _, _⟩ := strengths_rain_one _ hrain
    have hne : badStrength (evalInput t h l r tm) ≠ 0 := by
      rw [hb]; norm_num
    unfold noRuleActivated
    rw [decide_eq_false hne]
    simp

section RatEval2

set_option maxRecDepth 1000000

attribute [local semireducible] Rat.mul Rat.add Rat.inv Rat.sub

/-- Counterexample to C2 as stated: at temperature 25, humidity 60, light 0,
rain 0, hour 3, rules genuinely activate (`noRuleActivated` is false) and the
genuinely aggregated centroid is exactly 50, yet the returned record carries
status "success", the hardcoded rules list and confidence 50 — precisely the
record the default branch would produce, so a caller cannot distinguish the
no-rule default from a real aggregated score of 50.  (The log line
"No rules activated, using default" is the only trace, and it is not part of
the returned result.) -/
theorem no_rule_marker_counterexample :
    noRuleActivated (evalInput 25 60 0 0 3) = false ∧
    centroid (aggMF (evalInput 25 60 0 0 3)) = 50 ∧
    evaluate 25 60 0 0 3 =
      .ok ⟨"cukup", 50, "success", ["rule1", "rule3"], 25, 60, 0, 0, 3⟩ := by
  refine ⟨by decide, by decide, ?_⟩
  have h1 : evalOutput (evalInput 25 60 0 0 3) = 50 := by decide
  rw [evaluate_ok 25 60 0 0 3 (by norm_num) (by norm_num) (by norm_num)
    (by norm_num), h1]
  decide

end RatEval2

/-- Witness for C3 at temperature 25, humidity 60, light 0, rain 0, hour 3. -/
theorem evaluate_confidence_category_witness :
    ∃ res : EvalOk, evaluate 25 60 0 0 3 = .ok res ∧
      0 ≤ res.confidence ∧ res.confidence ≤ 100 ∧
      (res.recommendation = "bagus" ↔ 70 ≤ res.confidence) ∧
      (res.recommendation = "cukup" ↔ 30 ≤ res.confidence ∧ res.confidence < 70) ∧
      (res.recommendation = "buruk" ↔ res.confidence < 30) :=
  evaluate_confidence_category 25 60 0 0 3 (by norm_num) (by norm_num)
    (by norm_num) (by norm_num)

/-! ## MQTT handler (`mqtt_handler.py`)

### RTC timestamp parsing (`MQTTClient.parse_rtc_time`)

`datetime.strptime` is modelled the way CPython's `_strptime` implements it:
each directive is an ordered list of digit-string alternatives (the two-digit
forms before the one-digit form, mirroring the regexes `%Y ↦ dddd`,
`%m ↦ 1[0-2]|0[1-9]|[1-9]`, `%d ↦ 3[01]|[12]d|0[1-9]|[1-9]`,
`%H ↦ 2[0-3]|[0-1]d|d`, `%M,%S ↦ [0-5]d|d`), the whole string must be
consumed, the first match in backtracking order is taken, and the matched
calendar date is then validated as the `datetime` constructor does (year at
least 1, day not exceeding the month's length). -/

/-- A parsed `datetime` value (year, month, day, hour, minute, second). -/
structure DT where
  year : ℕ
  mon : ℕ
  day : ℕ
  hour : ℕ
  minute : ℕ
  second : ℕ
deriving DecidableEq

/-- ASCII digit test (what the relevant regexes and literals use). -/
def isDig (c : Char) : Bool := decide (48 ≤ c.toNat ∧ c.toNat ≤ 57)

def digitVal (c : Char) : ℕ := c.toNat - 48

/-- `%Y`: exactly four digits. -/
def candYear : List Char → List (ℕ × List Char)
  | a :: b :: c :: d :: rest =>
    if isDig a ∧ isDig b ∧ isDig c ∧ isDig d then
      [(((digitVal a * 10 + digitVal b) * 10 + digitVal c) * 10 + digitVal d,
        rest)]
    else []
  | _ => []

/-- A two-digit alternative (value admitted by `ok2`) tried before a
one-digit alternative (value admitted by `ok1`), in regex alternation
order. -/
def candTwoOne (ok2 ok1 : ℕ → Bool) : List Char → List (ℕ × List Char)
  | a :: b :: rest =>
    (if isDig a ∧ isDig b ∧ ok2 (digitVal a * 10 + digitVal b) then
      [(digitVal a * 10 + digitVal b, rest)] else []) ++
    (if isDig a ∧ ok1 (digitVal a) then [(digitVal a, b :: rest)] else [])
  | [a] => if isDig a ∧ ok1 (digitVal a) then [(digitVal a, [])] else []
  | [] => []

def candMon : List Char → List (ℕ × List Char) :=
  candTwoOne (fun v => decide (1 ≤ v ∧ v ≤ 12)) (fun v => decide (1 ≤ v ∧ v ≤ 9))

def candDay : List Char → List (ℕ × List Char) :=
  candTwoOne (fun v => decide (1 ≤ v ∧ v ≤ 31)) (fun v => decide (1 ≤ v ∧ v ≤ 9))

def candHour : List Char → List (ℕ × List Char) :=
  candTwoOne (fun v => decide (v ≤ 23)) (fun _ => true)

def candMinSec : List Char → List (ℕ × List Char) :=
  candTwoOne (fun v => decide (v ≤ 59)) (fun _ => true)

/-- One directive of a `strptime` format string. -/
inductive FTok where
  | lit : Char → FTok
  | year : FTok
  | mon : FTok
  | day : FTok
  | hour : FTok
  | minute : FTok
  | second : FTok
deriving DecidableEq

/-- All complete matches of a format against a character list, in
backtracking order; the head (if any) is the match the regex engine
returns. -/
def matchFmt : List FTok → DT → List Char → List DT
  | [], dt, l => if l = [] then [dt] else []
  | FTok.lit c :: ts, dt, l =>
    match l with
    | [] => []
    | x :: rest => if x = c then matchFmt ts dt rest else []
  | FTok.year :: ts, dt, l =>
    (candYear l).flatMap fun p => matchFmt ts { dt with year := p.1 } p.2
  | FTok.mon :: ts, dt, l =>
    (candMon l).flatMap fun p => matchFmt ts { dt with mon := p.1 } p.2
  | FTok.day :: ts, dt, l =>
    (candDay l).flatMap fun p => matchFmt ts { dt with day := p.1 } p.2
  | FTok.hour :: ts, dt, l =>
    (candHour l).flatMap fun p => matchFmt ts { dt with hour := p.1 } p.2
  | FTok.minute :: ts, dt, l =>
    (candMinSec l).flatMap fun p => matchFmt ts { dt with minute := p.1 } p.2
  | FTok.second :: ts, dt, l =>
    (candMinSec l).flatMap fun p => matchFmt ts { dt with second := p.1 } p.2

def isLeap (y : ℕ) : Bool :=
  decide ((y % 4 = 0 ∧ ¬y % 100 = 0) ∨ y % 400 = 0)

def daysInMonth (y m : ℕ) : ℕ :=
  if m = 2 then (if isLeap y then 29 else 28)
  else if m = 4 ∨ m = 6 ∨ m = 9 ∨ m = 11 then 30
  else 31

/-- The `datetime` constructor's validation for the fields the directives do
not already bound: month 1–12, day ≥ 1, hour ≤ 23 and minute/second ≤ 59 are
enforced by the directives themselves; year ≥ 1 (MINYEAR) and day within the
month's length remain to be checked. -/
def validDT (dt : DT) : Bool :=
  decide (1 ≤ dt.year ∧ dt.day ≤ daysInMonth dt.year dt.mon)

/-- `strptime`'s unspecified-field defaults: 1900-01-01 00:00:00. -/
def strptimeDefault : DT := ⟨1900, 1, 1, 0, 0, 0⟩

/-- `datetime.strptime(s, fmt)` returning `none` for `ValueError`. -/
def strptime (fmt : List FTok) (s : List Char) : Option DT :=
  match matchFmt fmt strptimeDefault s with
  | [] => none
  | dt :: _ => if validDT dt then some dt else none

/-- `"%Y-%m-%d %H:%M:%S"` -/
def fmtA : List FTok :=
  [FTok.year, FTok.lit '-', FTok.mon, FTok.lit '-', FTok.day, FTok.lit ' ',
    FTok.hour, FTok.lit ':', FTok.minute, FTok.lit ':', FTok.second]

/-- `"%d/%m/%Y %H:%M:%S"` -/
def fmtB : List FTok :=
  [FTok.day, FTok.lit '/', FTok.mon, FTok.lit '/', FTok.year, FTok.lit ' ',
    FTok.hour, FTok.lit ':', FTok.minute, FTok.lit ':', FTok.second]

/-- `"%H:%M:%S %d-%m-%Y"` -/
def fmtC : List FTok :=
  [FTok.hour, FTok.lit ':', FTok.minute, FTok.lit ':', FTok.second,
    FTok.lit ' ', FTok.day, FTok.lit '-', FTok.mon, FTok.lit '-', FTok.year]

/-- `"%Y-%m-%dT%H:%M:%S"` -/
def fmtD : List FTok :=
  [FTok.year, FTok.lit '-', FTok.mon, FTok.lit '-', FTok.day, FTok.lit 'T',
    FTok.hour, FTok.lit ':', FTok.minute, FTok.lit ':', FTok.second]

/-- `MQTTClient.parse_rtc_time`: the four formats tried in source order, the
first that parses wins; `none` models the fall-through to
`datetime.now()` with the logged "Invalid RTC time format" warning. -/
def parse_rtc_time (s : List Char) : Option DT :=
  match strptime fmtA s with
  | some d => some d
  | none =>
    match strptime fmtB s with
    | some d => some d
    | none =>
      match strptime fmtC s with
      | some d => some d
      | none => strptime fmtD s

/-! ### Payload parsing (`MQTTClient.process_sensor_data`)

Python string primitives restricted to the ASCII payloads the device sends:
`str.strip` drops the six ASCII whitespace characters, `str.lower` lowers
A–Z, `float()`/`int()` accept plain decimal literals (the device payloads
use no exponent/infinity/underscore forms). -/

def isPySpace (c : Char) : Bool :=
  decide (c = ' ' ∨ c = '\t' ∨ c = '\n' ∨ c = '\r' ∨ c.toNat = 11 ∨ c.toNat = 12)

def trimChars (l : List Char) : List Char :=
  ((l.dropWhile isPySpace).reverse.dropWhile isPySpace).reverse

def lowerChar (c : Char) : Char :=
  if 'A' ≤ c ∧ c ≤ 'Z' then Char.ofNat (c.toNat + 32) else c

def lowerChars (l : List Char) : List Char := l.map lowerChar

def natOfDigits (l : List Char) : ℕ :=
  l.foldl (fun acc c => acc * 10 + digitVal c) 0

def allDigits (l : List Char) : Bool := l.all isDig

/-- Python `int(value)` on an already-stripped string. -/
def parseInt (s : List Char) : Option ℤ :=
  match s with
  | '-' :: rest =>
    if rest ≠ [] ∧ allDigits rest then some (-(natOfDigits rest : ℤ)) else none
  | '+' :: rest =>
    if rest ≠ [] ∧ allDigits rest then some ((natOfDigits rest : ℤ)) else none
  | _ =>
    if s ≠ [] ∧ allDigits s then some ((natOfDigits s : ℤ)) else none

/-- Python `float(value)` on an already-stripped string, for the plain
decimal forms `[sign] digits`, `[sign] digits . digits`, `[sign] . digits`,
`[sign] digits .`. -/
def parseFloat (s : List Char) : Option ℚ :=
  let sl : ℚ × List Char :=
    match s with
    | '-' :: rest => (-1, rest)
    | '+' :: rest => (1, rest)
    | _ => (1, s)
  let intPart := sl.2.takeWhile isDig
  let rest := sl.2.dropWhile isDig
  match rest with
  | [] => if intPart ≠ [] then some (sl.1 * (natOfDigits intPart : ℚ)) else none
  | '.' :: frac =>
    if allDigits frac ∧ (intPart ≠ [] ∨ frac ≠ []) then
      some (sl.1 * ((natOfDigits intPart : ℚ) +
        (natOfDigits frac : ℚ) / (10 : ℚ) ^ frac.length))
    else none
  | _ => none

/-- `value.lower() not in ['tidak hujan', 'false', '0']` for the `hujan`
field. -/
def hujanBool (v : List Char) : Bool :=
  decide (lowerChars v ∉
    ["tidak hujan".toList, "false".toList, "0".toList])

/-- Splitting on a separator character (`payload.split(',')`,
`pair.split(':', 1)` is recovered by rejoining the tail). -/
def splitOnChar (c : Char) : List Char → List (List Char)
  | [] => [[]]
  | x :: xs =>
    if x = c then [] :: splitOnChar c xs
    else
      match splitOnChar c xs with
      | [] => [[x]]
      | g :: gs => (x :: g) :: gs

/-- Rejoin with `':'`: the value side of `pair.split(':', 1)`. -/
def joinColon : List (List Char) → List Char
  | [] => []
  | [g] => g
  | g :: gs => g ++ ':' :: joinColon gs

/-- The fields accumulated from one payload: `data_dict` after the
`field_mapping` filter, plus the `waktu` raw string.  `heat_index` and
`dew_point` are parsed by the source but discarded by the mapping, so they
never affect the record. -/
structure ParsedPayload where
  temperature : Option ℚ
  humidity : Option ℚ
  light : Option ℤ
  rain : Option Bool
  waktu : Option (List Char)
deriving DecidableEq

/-- Dispatch on the normalised (`strip().lower()`) key and stripped value of
one pair: a numeric field whose conversion fails is skipped with a logged
warning; `heat_index`/`dew_point` are converted but discarded by the field
mapping; unknown keys are likewise dropped by the mapping. -/
def applyKV (acc : ParsedPayload) (key value : List Char) : ParsedPayload :=
  if key = "waktu".toList then { acc with waktu := some value }
  else if key = "suhu".toList then
    match parseFloat value with
    | some q => { acc with temperature := some q }
    | none => acc
  else if key = "kelembapan".toList then
    match parseFloat value with
    | some q => { acc with humidity := some q }
    | none => acc
  else if key = "heat_index".toList ∨ key = "dew_point".toList then acc
  else if key = "cahaya_analog".toList then
    match parseInt value with
    | some n => { acc with light := some n }
    | none => acc
  else if key = "hujan".toList then { acc with rain := some (hujanBool value) }
  else acc

/-- Processing of one `key:value` pair of the payload (a pair without a
colon is skipped; `pair.split(':', 1)` keys on the first colon only). -/
def applyPair (acc : ParsedPayload) (pair : List Char) : ParsedPayload :=
  match splitOnChar ':' pair with
  | [] => acc
  | [_] => acc
  | k :: rest =>
    applyKV acc (lowerChars (trimChars k)) (trimChars (joinColon rest))

def emptyPayload : ParsedPayload := ⟨none, none, none, none, none⟩

def processPairs (pairs : List (List Char)) (acc : ParsedPayload) :
    ParsedPayload :=
  pairs.foldl applyPair acc

/-- The canonical telemetry record (`JemuranData` dataclass). -/
structure JemuranData where
  temperature : ℚ
  humidity : ℚ
  light : ℤ
  rain : Bool
  last_update : DT
  current_hour : ℕ
deriving DecidableEq

/-- Timestamp resolution of `process_sensor_data`: Python falls back to
`datetime.now()` (the `now` argument) when the `waktu` string is absent or
empty (falsy) or parses under none of the four formats; the Bool mirrors
the warning the source logs in exactly these cases. -/
def resolveTime (now : DT) (w : Option (List Char)) : DT × Bool :=
  match w with
  | some s =>
    if s = [] then (now, true)
    else
      match parse_rtc_time s with
      | some d => (d, false)
      | none => (now, true)
  | none => (now, true)

/-- Assembly of the `JemuranData` record: zero/false defaults for absent
fields, `current_hour = last_update.hour`. -/
def buildRecord (now : DT) (p : ParsedPayload) : JemuranData × Bool :=
  (⟨p.temperature.getD 0, p.humidity.getD 0, p.light.getD 0, p.rain.getD false,
    (resolveTime now p.waktu).1, (resolveTime now p.waktu).1.hour⟩,
    (resolveTime now p.waktu).2)

/-- `MQTTClient.process_sensor_data`: parse all pairs, resolve the
timestamp, build the record. -/
def process_sensor_data (now : DT) (payload : String) : JemuranData × Bool :=
  buildRecord now (processPairs (splitOnChar ',' payload.toList) emptyPayload)

/-! ### Client state and message dispatch -/

/-- The mutable state of `MQTTClient` relevant to telemetry and
confirmation: `servo_status` and `latest_data` (both `None` in
`__init__`). -/
structure MQTTState where
  servo_status : Option String
  latest_data : Option JemuranData
deriving DecidableEq

def initialState : MQTTState := ⟨none, none⟩

/-- `MQTTClient.on_message`: `jemuran/control` and `jemuran/status` both
overwrite `servo_status` with the payload; `jemuran/data` runs the sensor
pipeline and replaces `latest_data`; other topics change nothing. -/
def on_message (now : DT) (st : MQTTState) (topic payload : String) :
    MQTTState :=
  if topic = "jemuran/control" then { st with servo_status := some payload }
  else if topic = "jemuran/status" then { st with servo_status := some payload }
  else if topic = "jemuran/data" then
    { st with latest_data := some (process_sensor_data now payload).1 }
  else st

/-- Format 1 of `get_formatted_data` (the API response; the source renders
`last_update` with `isoformat()`, kept here as the parsed value). -/
structure ApiResponse where
  temperature : ℚ
  humidity : ℚ
  light : ℤ
  rain : Bool
  lastUpdate : DT
deriving DecidableEq

/-- Format 2 of `get_formatted_data` (the recommendation-system input). -/
structure RecommendationInput where
  temperature : ℚ
  humidity : ℚ
  light : ℚ
  rain : ℚ
  time : ℚ
deriving DecidableEq

/-- `MQTTClient.get_formatted_data`. -/
def get_formatted_data (st : MQTTState) :
    Option ApiResponse × Option RecommendationInput :=
  match st.latest_data with
  | none => (none, none)
  | some d =>
    (some ⟨d.temperature, d.humidity, d.light, d.rain, d.last_update⟩,
      some ⟨d.temperature, d.humidity, (d.light : ℚ),
        if d.rain then 1 else 0, (d.current_hour : ℚ)⟩)

/-! ### `MQTTClient.publish_control`

The loop's interaction with the broker and the device is abstracted by an
environment oracle: for the 1-based attempt number `k`, `connected k` is the
connection state when attempt `k` runs (after the inline reconnect attempt,
if one was needed), `publishOk k` whether `client.publish` returned
`MQTT_ERR_SUCCESS`, and `statusSeen k` the `servo_status` value the
confirmation poll observes during attempt `k`'s five-second window. -/

structure ControlEnv where
  connected : ℕ → Bool
  publishOk : ℕ → Bool
  statusSeen : ℕ → Option String

/-- Outcome of `publish_control` — the `(bool, message)` pair of the source,
instrumented with the number of loop iterations that ran and the number of
`client.publish` calls that were made. -/
structure ControlResult where
  success : Bool
  message : String
  attemptsMade : ℕ
  publishCount : ℕ
deriving DecidableEq

def failMessage (action : String) (maxRetries : ℕ) : String :=
  "Failed to send command " ++ action ++ " after " ++ toString maxRetries ++
    " attempts"

def successMessage (action : String) : String :=
  "Servo successfully " ++ action

def invalidMessage (action : String) : String :=
  "Invalid command: " ++ action ++ " (must be buka or tutup)"

/-- The `for attempt in range(1, max_retries + 1)` loop: skip the attempt if
still disconnected after the reconnect, count a publish and move on if the
publish fails or no matching status arrives in the window, return success on
a matching status. -/
def controlLoop (env : ControlEnv) (action : String) (maxRetries : ℕ) :
    ℕ → ℕ → ControlResult
  | 0, pubs => ⟨false, failMessage action maxRetries, maxRetries, pubs⟩
  | fuel + 1, pubs =>
    let k := maxRetries - fuel
    if ¬env.connected k then controlLoop env action maxRetries fuel pubs
    else if ¬env.publishOk k then
      controlLoop env action maxRetries fuel (pubs + 1)
    else if env.statusSeen k = some action then
      ⟨true, successMessage action, k, pubs + 1⟩
    else controlLoop env action maxRetries fuel (pubs + 1)

/-- `MQTTClient.publish_control` (`max_retries` defaults to 3 at the call
sites). -/
def publish_control (env : ControlEnv) (action : String) (maxRetries : ℕ) :
    ControlResult :=
  if action ∉ (["buka", "tutup"] : List String) then
    ⟨false, invalidMessage action, 0, 0⟩
  else controlLoop env action maxRetries maxRetries 0

/-! ### C4: validation failures are rejected outright -/

/-- C4: an out-of-domain temperature or humidity makes `evaluate` return a
validation failure and no recommendation, and `publish_control` with an
action other than "buka"/"tutup" returns a failure outcome with no attempt
run, nothing published and nothing retried. -/
theorem invalid_request_rejected (t h : ℚ) (l r tm : ℤ) (env : ControlEnv)
    (action : String) (hbad : ¬(0 ≤ t ∧ t ≤ 50) ∨ ¬(0 ≤ h ∧ h ≤ 100))
    (hact : action ≠ "buka" ∧ action ≠ "tutup") :
    (∃ msg, evaluate t h l r tm = .error msg) ∧
    publish_control env action 3 = ⟨false, invalidMessage action, 0, 0⟩ := by
  constructor
  · unfold evaluate
    by_cases ht : 0 ≤ t ∧ t ≤ 50
    · rcases hbad with hb | hb
      · exact absurd ht hb
      · exact ⟨_, by rw [if_neg (not_not_intro ht), if_pos hb]⟩
    · exact ⟨_, by rw [if_pos ht]⟩
  · unfold publish_control
    rw [if_pos (by simp [hact.1, hact.2])]

/-- Witness for C4: temperature 60 is rejected; action "stop" is rejected
without a publish. -/
theorem invalid_request_rejected_witness :
    (∃ msg, evaluate 60 50 0 0 12 = .error msg) ∧
    publish_control ⟨fun _ => true, fun _ => true, fun _ => none⟩ "stop" 3 =
      ⟨false, invalidMessage "stop", 0, 0⟩ :=
  invalid_request_rejected 60 50 0 0 12
    ⟨fun _ => true, fun _ => true, fun _ => none⟩ "stop"
    (Or.inl (by norm_num)) (by decide)

/-! ### C5: which topics update the stored confirmation value -/

/-- Counterexample to C5 as stated: a message on the control-echo topic
`jemuran/control` does not leave the stored confirmation value unchanged —
`on_message` overwrites `servo_status` with the payload (the same assignment
the status topic performs). -/
theorem control_echo_overwrites_counterexample :
    (on_message ⟨2025, 6, 24, 12, 0, 0⟩ ⟨some "tutup", none⟩
        "jemuran/control" "buka").servo_status = some "buka" ∧
    some "buka" ≠ some "tutup" := by decide

/-- C5 (amended): messages on both `jemuran/control` and `jemuran/status`
overwrite the stored confirmation value with the payload; only the telemetry
topic leaves it unchanged. -/
theorem servo_status_topic_effects (now : DT) (st : MQTTState)
    (payload : String) :
    (on_message now st "jemuran/control" payload).servo_status = some payload ∧
    (on_message now st "jemuran/status" payload).servo_status = some payload ∧
    (on_message now st "jemuran/data" payload).servo_status =
      st.servo_status := by
  refine ⟨rfl, ?_, ?_⟩
  · unfold on_message
    rw [if_neg (by decide), if_pos rfl]
  · unfold on_message
    rw [if_neg (by decide), if_neg (by decide), if_pos rfl]

/-! ### C6: confirmation and retry exhaustion -/

lemma controlLoop_zero (env : ControlEnv) (action : String)
    (maxRetries pubs : ℕ) :
    controlLoop env action maxRetries 0 pubs =
      ⟨false, failMessage action maxRetries, maxRetries, pubs⟩ := rfl

lemma controlLoop_succ (env : ControlEnv) (action : String)
    (maxRetries fuel pubs : ℕ) :
    controlLoop env action maxRetries (fuel + 1) pubs =
      if ¬env.connected (maxRetries - fuel) then
        controlLoop env action maxRetries fuel pubs
      else if ¬env.publishOk (maxRetries - fuel) then
        controlLoop env action maxRetries fuel (pubs + 1)
      else if env.statusSeen (maxRetries - fuel) = some action then
        ⟨true, successMessage action, maxRetries - fuel, pubs + 1⟩
      else controlLoop env action maxRetries fuel (pubs + 1) := rfl

/-- If the observed status never equals the action, every attempt falls
through and the loop exhausts all its iterations. -/
lemma controlLoop_no_confirm (env : ControlEnv) (action : String)
    (maxRetries : ℕ) (hs : ∀ k, env.statusSeen k ≠ some action) :
    ∀ fuel pubs, ∃ p, controlLoop env action maxRetries fuel pubs =
      ⟨false, failMessage action maxRetries, maxRetries, p⟩ := by
  intro fuel
  induction fuel with
  | zero => exact fun pubs => ⟨pubs, rfl⟩
  | succ n ih =>
    intro pubs
    rw [controlLoop_succ]
    by_cases h1 : env.connected (maxRetries - n)
    · rw [if_neg (not_not_intro h1)]
      by_cases h2 : env.publishOk (maxRetries - n)
      · rw [if_neg (not_not_intro h2), if_neg (hs _)]
        exact ih (pubs + 1)
      · rw [if_pos h2]
        exact ih (pubs + 1)
    · rw [if_pos h1]
      exact ih pubs

/-- C6: for a valid action, a status echo matching the action within the
first attempt's window makes `publish_control` succeed on attempt 1 with one
publish; a status that never matches makes it fail after exactly the
configured 3 attempts with the message carrying the action and the attempt
count. -/
theorem send_control_confirmation (env : ControlEnv) (action : String)
    (hact : action = "buka" ∨ action = "tutup") :
    (env.connected 1 = true → env.publishOk 1 = true →
      env.statusSeen 1 = some action →
      publish_control env action 3 = ⟨true, successMessage action, 1, 1⟩) ∧
    ((∀ k, env.statusSeen k ≠ some action) →
      (publish_control env action 3).success = false ∧
      (publish_control env action 3).attemptsMade = 3 ∧
      (publish_control env action 3).message = failMessage action 3) := by
  have hmem : ¬action ∉ (["buka", "tutup"] : List String) := by
    rcases hact with hx | hx <;> simp [hx]
  constructor
  · intro hc hp hs
    unfold publish_control
    rw [if_neg hmem]
    have h3 : (3 : ℕ) = 2 + 1 := rfl
    rw [h3, controlLoop_succ]
    have hk : (2 + 1 : ℕ) - 2 = 1 := rfl
    rw [hk, hc, hp, hs]
    simp
  · intro hs
    unfold publish_control
    rw [if_neg hmem]
    obtain ⟨p, hp⟩ := controlLoop_no_confirm env action 3 hs 3 0
    rw [hp]
    exact ⟨rfl, rfl, rfl⟩

/-- Witness for C6: an environment whose status echo is "buka" from the
start confirms the "buka" command on attempt 1. -/
theorem send_control_confirmation_witness :
    publish_control ⟨fun _ => true, fun _ => true, fun _ => some "buka"⟩
      "buka" 3 = ⟨true, successMessage "buka", 1, 1⟩ :=
  (send_control_confirmation
    ⟨fun _ => true, fun _ => true, fun _ => some "buka"⟩ "buka"
    (Or.inl rfl)).1 rfl rfl rfl

/-! ### C7: parser round-trip and the rain boolean -/

section RatEval3

set_option maxRecDepth 1000000

attribute [local semireducible] Rat.mul Rat.add Rat.inv Rat.sub

/-- C7: the spec's example payload parses to temperature 28.5, humidity 55,
light 1800, rain false, hour-of-day 21 (device timestamp accepted, no clock
fallback), and for every payload value the `hujan` field resolves to false
exactly when its lowered text is "tidak hujan", "false" or "0", to true for
every other value. -/
theorem parser_roundtrip_and_rain (now : DT) (v : List Char) :
    process_sensor_data now
      "suhu:28.5,kelembapan:55,cahaya_analog:1800,hujan:tidak hujan,waktu:2025-06-24 21:28:44" =
      (⟨57 / 2, 55, 1800, false, ⟨2025, 6, 24, 21, 28, 44⟩, 21⟩, false) ∧
    (hujanBool v = false ↔ lowerChars v ∈
      ["tidak hujan".toList, "false".toList, "0".toList]) := by
  constructor
  · have hp : processPairs (splitOnChar ','
        ("suhu:28.5,kelembapan:55,cahaya_analog:1800,hujan:tidak hujan,waktu:2025-06-24 21:28:44").toList)
        emptyPayload =
        ⟨some (57 / 2), some 55, some 1800, some false,
          some "2025-06-24 21:28:44".toList⟩ := by decide
    unfold process_sensor_data buildRecord resolveTime
    rw [hp]
    dsimp only
    rw [if_neg (by decide),
      show parse_rtc_time "2025-06-24 21:28:44".toList =
        some ⟨2025, 6, 24, 21, 28, 44⟩ from by decide]
    rfl
  · unfold hujanBool
    rw [decide_eq_false_iff_not]
    exact not_not

end RatEval3

/-! ### C8: an unconvertible numeric field is dropped, the rest applies -/

lemma splitOnChar_ne_nil (c : Char) (l : List Char) : splitOnChar c l ≠ [] := by
  cases l with
  | nil => simp [splitOnChar]
  | cons x xs =>
    unfold splitOnChar
    split_ifs
    · simp
    · cases hs : splitOnChar c xs <;> simp

lemma splitOnChar_append (c : Char) (k v : List Char) (hk : c ∉ k) :
    splitOnChar c (k ++ c :: v) = k :: splitOnChar c v := by
  induction k with
  | nil => simp [splitOnChar]
  | cons x xs ih =>
    have hx : x ≠ c := (List.ne_of_not_mem_cons hk).symm
    have ihx := ih (List.not_mem_of_not_mem_cons hk)
    rw [List.cons_append]
    conv_lhs => unfold splitOnChar
    rw [if_neg hx, ihx]

lemma joinColon_splitOnChar (l : List Char) :
    joinColon (splitOnChar ':' l) = l := by
  induction l with
  | nil => rfl
  | cons x xs ih =>
    unfold splitOnChar
    split_ifs with hx
    · subst hx
      rcases hs : splitOnChar ':' xs with - | ⟨g, gs⟩
      · exact absurd hs (splitOnChar_ne_nil _ _)
      · rw [hs] at ih
        show ':' :: joinColon (g :: gs) = ':' :: xs
        rw [ih]
    · rcases hs : splitOnChar ':' xs with - | ⟨g, gs⟩
      · exact absurd hs (splitOnChar_ne_nil _ _)
      · rw [hs] at ih
        cases gs with
        | nil =>
          show x :: g = x :: xs
          rw [show joinColon [g] = g from rfl] at ih
          rw [ih]
        | cons g2 gs2 =>
          show (x :: g) ++ ':' :: joinColon (g2 :: gs2) = x :: xs
          rw [List.cons_append, ← show joinColon (g :: g2 :: gs2) =
            g ++ ':' :: joinColon (g2 :: gs2) from rfl, ih]

/-- Key dispatch for a numeric field whose value fails conversion leaves the
accumulated fields untouched. -/
lemma applyKV_drop (acc : ParsedPayload) (key value : List Char)
    (hbad :
      (key ∈ ["suhu".toList, "kelembapan".toList, "heat_index".toList,
          "dew_point".toList] ∧ parseFloat value = none) ∨
      (key = "cahaya_analog".toList ∧ parseInt value = none)) :
    applyKV acc key value = acc := by
  unfold applyKV
  rcases hbad with ⟨hkey, hv⟩ | ⟨hkey, hv⟩
  · simp only [List.mem_cons, List.not_mem_nil, or_false] at hkey
    rcases hkey with h | h | h | h
    all_goals subst h
    · rw [if_neg (by decide), if_pos rfl, hv]
    · rw [if_neg (by decide), if_neg (by decide), if_pos rfl, hv]
    · rw [if_neg (by decide), if_neg (by decide), if_neg (by decide),
        if_pos (Or.inl rfl)]
    · rw [if_neg (by decide), if_neg (by decide), if_neg (by decide),
        if_pos (Or.inr rfl)]
  · subst hkey
    rw [if_neg (by decide), if_neg (by decide), if_neg (by decide),
      if_neg (by decide), if_pos rfl, hv]

/-- A pair whose key is one of the numeric fields and whose value fails the
numeric conversion leaves the accumulated fields untouched. -/
lemma applyPair_drop (acc : ParsedPayload) (k v : List Char) (hk : ':' ∉ k)
    (hbad :
      (lowerChars (trimChars k) ∈
          ["suhu".toList, "kelembapan".toList, "heat_index".toList,
            "dew_point".toList] ∧ parseFloat (trimChars v) = none) ∨
      (lowerChars (trimChars k) = "cahaya_analog".toList ∧
        parseInt (trimChars v) = none)) :
    applyPair acc (k ++ ':' :: v) = acc := by
  unfold applyPair
  rw [splitOnChar_append ':' k v hk]
  rcases hs : splitOnChar ':' v with - | ⟨g, gs⟩
  · exact absurd hs (splitOnChar_ne_nil _ _)
  · have hjoin : joinColon (g :: gs) = v := by
      rw [← hs]; exact joinColon_splitOnChar v
    show applyKV acc (lowerChars (trimChars k))
      (trimChars (joinColon (g :: gs))) = acc
    rw [hjoin]
    exact applyKV_drop acc _ _ hbad

/-- C8: a payload pair holding a numeric field whose value fails conversion
is dropped without rejecting the payload — processing the pair list is
identical to processing it with that pair removed, so every other field in
the message still applies and the dropped field keeps its default. -/
theorem bad_numeric_field_dropped (pre post : List (List Char))
    (acc : ParsedPayload) (k v : List Char) (hk : ':' ∉ k)
    (hbad :
      (lowerChars (trimChars k) ∈
          ["suhu".toList, "kelembapan".toList, "heat_index".toList,
            "dew_point".toList] ∧ parseFloat (trimChars v) = none) ∨
      (lowerChars (trimChars k) = "cahaya_analog".toList ∧
        parseInt (trimChars v) = none)) :
    processPairs (pre ++ (k ++ ':' :: v) :: post) acc =
      processPairs (pre ++ post) acc := by
  unfold processPairs
  rw [List.foldl_append, List.foldl_append, List.foldl_cons,
    applyPair_drop _ k v hk hbad]

section RatEval4

set_option maxRecDepth 1000000

attribute [local semireducible] Rat.mul Rat.add Rat.inv Rat.sub

/-- Witness for C8: dropping the unparseable `suhu:abc` pair leaves exactly
the processing of the rest, and the resulting record applies `kelembapan`
while `suhu` keeps its 0.0 default. -/
theorem bad_numeric_field_dropped_witness :
    processPairs ["suhu:abc".toList, "kelembapan:55".toList] emptyPayload =
      processPairs ["kelembapan:55".toList] emptyPayload ∧
    process_sensor_data ⟨2025, 6, 24, 12, 0, 0⟩ "suhu:abc,kelembapan:55" =
      (⟨0, 55, 0, false, ⟨2025, 6, 24, 12, 0, 0⟩, 12⟩, true) := by
  constructor
  · exact bad_numeric_field_dropped [] ["kelembapan:55".toList] emptyPayload
      "suhu".toList "abc".toList (by decide) (Or.inl ⟨by decide, by decide⟩)
  · decide

end RatEval4

/-! ### C9: timestamp layouts, order, and the clock fallback -/

/-- C9: `parse_rtc_time` tries exactly the four literal layouts in source
order with the first match winning; and a payload whose `waktu` field is
absent (or empty, which Python treats as absent) or matches no layout gets
`datetime.now()` as its timestamp with the clock-fallback flag set (the flag
mirrors the warning the source logs in exactly these situations). -/
theorem rtc_format_order_and_fallback (s : List Char) (now : DT)
    (payload : String) :
    ((strptime fmtA s).isSome → parse_rtc_time s = strptime fmtA s) ∧
    (strptime fmtA s = none → (strptime fmtB s).isSome →
      parse_rtc_time s = strptime fmtB s) ∧
    (strptime fmtA s = none → strptime fmtB s = none →
      (strptime fmtC s).isSome → parse_rtc_time s = strptime fmtC s) ∧
    (strptime fmtA s = none → strptime fmtB s = none →
      strptime fmtC s = none → parse_rtc_time s = strptime fmtD s) ∧
    (((processPairs (splitOnChar ',' payload.toList) emptyPayload).waktu =
        none ∨
      ∃ w, (processPairs (splitOnChar ',' payload.toList)
          emptyPayload).waktu = some w ∧ (w = [] ∨ parse_rtc_time w = none)) →
      (process_sensor_data now payload).1.last_update = now ∧
      (process_sensor_data now payload).2 = true) := by
  refine ⟨?_, ?_, ?_, ?_, ?_⟩
  · intro hA
    obtain ⟨d, hd⟩ := Option.isSome_iff_exists.mp hA
    unfold parse_rtc_time
    rw [hd]
  · intro hA hB
    obtain ⟨d, hd⟩ := Option.isSome_iff_exists.mp hB
    unfold parse_rtc_time
    rw [hA, hd]
  · intro hA hB hC
    obtain ⟨d, hd⟩ := Option.isSome_iff_exists.mp hC
    unfold parse_rtc_time
    rw [hA, hB, hd]
  · intro hA hB hC
    unfold parse_rtc_time
    rw [hA, hB, hC]
  · intro hw
    unfold process_sensor_data buildRecord
    have hres : resolveTime now
        (processPairs (splitOnChar ',' payload.toList) emptyPayload).waktu =
        (now, true) := by
      rcases hw with hw | ⟨w, hw, hcase⟩
      · rw [hw]
        rfl
      · rw [hw]
        show (if w = [] then (now, true)
          else match parse_rtc_time w with
            | some d => (d, false)
            | none => (now, true)) = (now, true)
        rcases hcase with hc | hc
        · rw [if_pos hc]
        · by_cases he : w = []
          · rw [if_pos he]
          · rw [if_neg he, hc]
    rw [hres]
    exact ⟨rfl, rfl⟩

/-- Witness for C9: one concrete string per layout parses (and the first
layout wins for the first string); a payload with an unparseable timestamp
falls back to the supplied clock value with the flag set. -/
theorem rtc_format_order_and_fallback_witness :
    parse_rtc_time "2025-06-24 21:28:44".toList =
      strptime fmtA "2025-06-24 21:28:44".toList ∧
    parse_rtc_time "24/06/2025 21:28:44".toList =
      strptime fmtB "24/06/2025 21:28:44".toList ∧
    parse_rtc_time "21:28:44 24-06-2025".toList =
      strptime fmtC "21:28:44 24-06-2025".toList ∧
    parse_rtc_time "2025-06-24T21:28:44".toList =
      strptime fmtD "2025-06-24T21:28:44".toList ∧
    (process_sensor_data ⟨2025, 6, 24, 12, 0, 0⟩
        "waktu:garbage").1.last_update = ⟨2025, 6, 24, 12, 0, 0⟩ ∧
    (process_sensor_data ⟨2025, 6, 24, 12, 0, 0⟩ "waktu:garbage").2 = true := by
  refine ⟨?_, ?_, ?_, ?_, ?_, ?_⟩
  · exact (rtc_format_order_and_fallback "2025-06-24 21:28:44".toList
      ⟨2025, 6, 24, 12, 0, 0⟩ "").1 (by decide)
  · exact (rtc_format_order_and_fallback "24/06/2025 21:28:44".toList
      ⟨2025, 6, 24, 12, 0, 0⟩ "").2.1 (by decide) (by decide)
  · exact (rtc_format_order_and_fallback "21:28:44 24-06-2025".toList
      ⟨2025, 6, 24, 12, 0, 0⟩ "").2.2.1 (by decide) (by decide) (by decide)
  · exact (rtc_format_order_and_fallback "2025-06-24T21:28:44".toList
      ⟨2025, 6, 24, 12, 0, 0⟩ "").2.2.2.1 (by decide) (by decide) (by decide)
  · exact ((rtc_format_order_and_fallback [] ⟨2025, 6, 24, 12, 0, 0⟩
      "waktu:garbage").2.2.2.2 (Or.inr ⟨"garbage".toList, by decide,
        Or.inr (by decide)⟩)).1
  · exact ((rtc_format_order_and_fallback [] ⟨2025, 6, 24, 12, 0, 0⟩
      "waktu:garbage").2.2.2.2 (Or.inr ⟨"garbage".toList, by decide,
        Or.inr (by decide)⟩)).2

/-! ### C10: the stored record keeps rain and hour in the engine's domain -/

lemma digitVal_le_nine {c : Char} (hc : isDig c = true) : digitVal c ≤ 9 := by
  have hb := of_decide_eq_true hc
  unfold digitVal
  omega

lemma candTwoOne_bound (ok2 ok1 : ℕ → Bool) (bound : ℕ)
    (h2 : ∀ v, ok2 v = true → v ≤ bound) (hb : 9 ≤ bound) :
    ∀ l p, p ∈ candTwoOne ok2 ok1 l → p.1 ≤ bound := by
  intro l p hp
  rcases l with - | ⟨a, l2⟩
  · simp [candTwoOne] at hp
  rcases l2 with - | ⟨b, rest⟩
  · simp only [candTwoOne] at hp
    split_ifs at hp with h
    · rcases List.mem_singleton.mp hp with rfl
      exact le_trans (digitVal_le_nine h.1) hb
    · simp at hp
  · simp only [candTwoOne] at hp
    rw [List.mem_append] at hp
    rcases hp with hp | hp
    · split_ifs at hp with h
      · rcases List.mem_singleton.mp hp with rfl
        exact h2 _ h.2.2
      · simp at hp
    · split_ifs at hp with h
      · rcases List.mem_singleton.mp hp with rfl
        exact le_trans (digitVal_le_nine h.1) hb
      · simp at hp

/-- Every hour value a format match can write into the record is at
most 23 (and the other directives leave the hour field alone). -/
lemma matchFmt_hour_le (fmt : List FTok) :
    ∀ (dt : DT) (l : List Char), dt.hour ≤ 23 →
      ∀ d ∈ matchFmt fmt dt l, d.hour ≤ 23 := by
  induction fmt with
  | nil =>
    intro dt l hdt d hd
    unfold matchFmt at hd
    split_ifs at hd with h
    · rcases List.mem_singleton.mp hd with rfl
      exact hdt
    · simp at hd
  | cons t ts ih =>
    intro dt l hdt d hd
    cases t with
    | lit c =>
      rcases l with - | ⟨x, rest⟩
      · simp [matchFmt] at hd
      · simp only [matchFmt] at hd
        split_ifs at hd with h
        · exact ih dt rest hdt d hd
        · simp at hd
    | year =>
      simp only [matchFmt] at hd
      rw [List.mem_flatMap] at hd
      obtain ⟨p, _, hd⟩ := hd
      exact ih { dt with year := p.1 } p.2 hdt d hd
    | mon =>
      simp only [matchFmt] at hd
      rw [List.mem_flatMap] at hd
      obtain ⟨p, _, hd⟩ := hd
      exact ih { dt with mon := p.1 } p.2 hdt d hd
    | day =>
      simp only [matchFmt] at hd
      rw [List.mem_flatMap] at hd
      obtain ⟨p, _, hd⟩ := hd
      exact ih { dt with day := p.1 } p.2 hdt d hd
    | hour =>
      simp only [matchFmt] at hd
      rw [List.mem_flatMap] at hd
      obtain ⟨p, hp, hd⟩ := hd
      have hp23 : p.1 ≤ 23 :=
        candTwoOne_bound _ _ 23 (fun v hv => of_decide_eq_true hv)
          (by norm_num) l p hp
      exact ih { dt with hour := p.1 } p.2 hp23 d hd
    | minute =>
      simp only [matchFmt] at hd
      rw [List.mem_flatMap] at hd
      obtain ⟨p, _, hd⟩ := hd
      exact ih { dt with minute := p.1 } p.2 hdt d hd
    | second =>
      simp only [matchFmt] at hd
      rw [List.mem_flatMap] at hd
      obtain ⟨p, _, hd⟩ := hd
      exact ih { dt with second := p.1 } p.2 hdt d hd

lemma strptime_hour_le {fmt : List FTok} {s : List Char} {d : DT}
    (h : strptime fmt s = some d) : d.hour ≤ 23 := by
  unfold strptime at h
  rcases hm : matchFmt fmt strptimeDefault s with - | ⟨dt, rest⟩
  · rw [hm] at h
    simp at h
  · rw [hm] at h
    dsimp only at h
    split_ifs at h with hv
    · injection h with h2
      subst h2
      exact matchFmt_hour_le fmt strptimeDefault s (by decide) dt
        (by rw [hm]; exact List.mem_cons_self dt rest)

lemma parse_rtc_time_hour_le {s : List Char} {d : DT}
    (h : parse_rtc_time s = some d) : d.hour ≤ 23 := by
  unfold parse_rtc_time at h
  rcases hA : strptime fmtA s with - | dA
  all_goals rw [hA] at h
  · rcases hB : strptime fmtB s with - | dB
    all_goals rw [hB] at h
    · rcases hC : strptime fmtC s with - | dC
      all_goals rw [hC] at h
      · exact strptime_hour_le h
      · injection h with h2
        subst h2
        exact strptime_hour_le hC
    · injection h with h2
      subst h2
      exact strptime_hour_le hB
  · injection h with h2
    subst h2
    exact strptime_hour_le hA

lemma resolveTime_hour_le (now : DT) (w : Option (List Char))
    (hnow : now.hour ≤ 23) : (resolveTime now w).1.hour ≤ 23 := by
  rcases w with - | s
  · exact hnow
  · show ((if s = [] then (now, true)
      else match parse_rtc_time s with
        | some d => (d, false)
        | none => (now, true)) : DT × Bool).1.hour ≤ 23
    split_ifs with he
    · exact hnow
    · rcases hp : parse_rtc_time s with - | dd
      · exact hnow
      · exact parse_rtc_time_hour_le hp

/-- C10: before any telemetry message has been processed,
`get_formatted_data` returns `(none, none)`; after a telemetry message is
processed (with the host clock hour in range), it returns two records, and
the recommendation input always carries rain exactly 0 or 1 and time an
integer hour in [0, 23] — inside the domain `evaluate` accepts without a
hard validation failure. -/
theorem formatted_data_domains (st : MQTTState) (now : DT) (payload : String)
    (hnow : now.hour ≤ 23) :
    get_formatted_data initialState = (none, none) ∧
    ∃ api rec,
      get_formatted_data (on_message now st "jemuran/data" payload) =
        (some api, some rec) ∧
      (rec.rain = 0 ∨ rec.rain = 1) ∧
      ∃ hr : ℕ, hr ≤ 23 ∧ rec.time = (hr : ℚ) := by
  refine ⟨rfl, ?_⟩
  have hmsg : on_message now st "jemuran/data" payload =
      { st with latest_data := some (process_sensor_data now payload).1 } := by
    unfold on_message
    rw [if_neg (by decide), if_neg (by decide), if_pos rfl]
  have hhour : (process_sensor_data now payload).1.current_hour ≤ 23 := by
    unfold process_sensor_data buildRecord
    exact resolveTime_hour_le now _ hnow
  refine ⟨⟨(process_sensor_data now payload).1.temperature,
      (process_sensor_data now payload).1.humidity,
      (process_sensor_data now payload).1.light,
      (process_sensor_data now payload).1.rain,
      (process_sensor_data now payload).1.last_update⟩,
    ⟨(process_sensor_data now payload).1.temperature,
      (process_sensor_data now payload).1.humidity,
      ((process_sensor_data now payload).1.light : ℚ),
      if (process_sensor_data now payload).1.rain then 1 else 0,
      ((process_sensor_data now payload).1.current_hour : ℚ)⟩, ?_, ?_, ?_⟩
  · rw [hmsg]
    rfl
  · by_cases hr : (process_sensor_data now payload).1.rain
    · right
      rw [if_pos hr]
    · left
      rw [if_neg hr]
  · exact ⟨(process_sensor_data now payload).1.current_hour, hhour, rfl⟩

/-- Witness for C10 at a concrete clock value and payload. -/
theorem formatted_data_domains_witness :
    (⟨2025, 6, 24, 12, 0, 0⟩ : DT).hour ≤ 23 ∧
    (get_formatted_data initialState = (none, none) ∧
      ∃ api rec, get_formatted_data (on_message ⟨2025, 6, 24, 12, 0, 0⟩
          initialState "jemuran/data" "suhu:30,hujan:hujan") =
        (some api, some rec) ∧ (rec.rain = 0 ∨ rec.rain = 1) ∧
        ∃ hr : ℕ, hr ≤ 23 ∧ rec.time = (hr : ℚ)) :=
  ⟨by decide, formatted_data_domains initialState ⟨2025, 6, 24, 12, 0, 0⟩
    "suhu:30,hujan:hujan" (by decide)⟩

end SmartJemuran
